import Mathlib

/-!
Verification of the asteroids gravity-sandbox simulation core.

The Rust source (src/vector.rs, src/objects.rs, src/world.rs, src/ship.rs)
is shallowly embedded here.  `f32` values are modelled as exact real
numbers; `Vec` below embeds both the hand-rolled `Vector` of vector.rs and
the `glam::Vec2` used by world.rs and ship.rs (the two types have identical
semantics for every operation the simulation core uses).  The wall-clock
diagnostic fields of `WorldState` (`update_count`, `last_ups_time`,
`updates_per_second`) only feed the updates-per-second statistic and touch
neither the asteroid list nor the clock arithmetic, so they are omitted
from the embedded state.
-/

open Real

open scoped Classical

noncomputable section

/-- Embeds `Vector` (vector.rs) / `glam::Vec2`: a 2D value type over ℝ. -/
@[ext]
structure Vec where
  x : ℝ
  y : ℝ

namespace Vec

instance : Zero Vec := ⟨⟨0, 0⟩⟩

instance : Add Vec := ⟨fun v w => ⟨v.x + w.x, v.y + w.y⟩⟩

instance : Neg Vec := ⟨fun v => ⟨-v.x, -v.y⟩⟩

instance : Sub Vec := ⟨fun v w => ⟨v.x - w.x, v.y - w.y⟩⟩

/-- Embeds `impl Mul<f32> for Vector`: scaling on the right. -/
instance : HMul Vec ℝ Vec := ⟨fun v s => ⟨v.x * s, v.y * s⟩⟩

/-- Embeds `impl Mul<Vector> for f32`: scaling on the left. -/
instance : HMul ℝ Vec Vec := ⟨fun s v => ⟨v.x * s, v.y * s⟩⟩

/-- Embeds `impl Div<f32> for Vector`: componentwise division by a scalar. -/
instance : HDiv Vec ℝ Vec := ⟨fun v s => ⟨v.x / s, v.y / s⟩⟩

instance : AddCommMonoid Vec where
  add_assoc a b c := Vec.ext (add_assoc a.x b.x c.x) (add_assoc a.y b.y c.y)
  zero_add a := Vec.ext (zero_add a.x) (zero_add a.y)
  add_zero a := Vec.ext (add_zero a.x) (add_zero a.y)
  add_comm a b := Vec.ext (add_comm a.x b.x) (add_comm a.y b.y)
  nsmul := nsmulRec

/-- Embeds `Vector::length` (vector.rs): `(x*x + y*y).sqrt()`. -/
def length (v : Vec) : ℝ := Real.sqrt (v.x * v.x + v.y * v.y)

/-- Embeds `Vector::norm` (vector.rs) / `Vec2::normalize`: `self / self.length()`. -/
def norm (v : Vec) : Vec := v / v.length

/-- Embeds `Vec2::dot`. -/
def dot (v w : Vec) : ℝ := v.x * w.x + v.y * w.y

end Vec

/-- Embeds `Asteroid` (objects.rs): position, velocity and size (area-as-mass). -/
@[ext]
structure Asteroid where
  pos : Vec
  vel : Vec
  size : ℝ

instance : Inhabited Asteroid := ⟨⟨0, 0, 0⟩⟩

namespace Asteroid

/-- Embeds `Asteroid::radius` (objects.rs lines 19-21): `self.size.sqrt() / PI`. -/
def radius (a : Asteroid) : ℝ := Real.sqrt a.size / π

/-- Embeds `Asteroid::collides_with` (objects.rs lines 63-65). -/
def collides_with (a other : Asteroid) : Prop :=
  (a.pos - other.pos).length ≤ a.radius + other.radius

/-- Embeds `Asteroid::merge_with` (objects.rs lines 68-93). -/
def merge_with (a other : Asteroid) : Asteroid :=
  let mass1 := a.size
  let mass2 := other.size
  let total_mass := mass1 + mass2
  let momentum_x := mass1 * a.vel.x + mass2 * other.vel.x
  let momentum_y := mass1 * a.vel.y + mass2 * other.vel.y
  let new_vel : Vec := ⟨momentum_x / total_mass, momentum_y / total_mass⟩
  let new_size := a.size + other.size
  let new_pos : Vec :=
    ⟨(mass1 * a.pos.x + mass2 * other.pos.x) / total_mass,
     (mass1 * a.pos.y + mass2 * other.pos.y) / total_mass⟩
  ⟨new_pos, new_vel, new_size⟩

end Asteroid

/-- Modelled from the spec: the perfectly inelastic reference merge —
sizes add, velocity is the momentum over the total mass, position is the
mass-weighted centroid.  This is the spec-side comparand for claim C4;
`Asteroid.merge_with` above is the code-side definition. -/
def inelasticRef (a b : Asteroid) : Asteroid :=
  ⟨(a.pos * a.size + b.pos * b.size) / (a.size + b.size),
   (a.vel * a.size + b.vel * b.size) / (a.size + b.size),
   a.size + b.size⟩

/-- Gravity accumulation loop of `Asteroid::update` (objects.rs lines
46-57): skip any other body whose circle strictly overlaps (`distance <
r_i + r_j`), otherwise add `direction.norm() * (size / distance)`. -/
def gravAcc (a : Asteroid) (others : List Asteroid) : Vec :=
  others.foldl
    (fun acc asteroid =>
      let direction := asteroid.pos - a.pos
      let distance := direction.length
      if distance < a.radius + asteroid.radius then acc
      else acc + direction.norm * (asteroid.size / distance))
    0

/-- Embeds `Asteroid::update` (objects.rs lines 45-60): accumulate
gravity, then `self.vel = acc * step + self.vel; self.pos += self.vel *
step`. -/
def Asteroid.update (a : Asteroid) (others : List Asteroid) (step : ℝ) : Asteroid :=
  let acc := gravAcc a others
  let vel := acc * step + a.vel
  { a with vel := vel, pos := a.pos + vel * step }

/-- Modelled from the spec (amended by the strict-inequality
counterexample): the force one body `j` exerts on `a` in one tick — zero
when the circles strictly overlap, otherwise magnitude `size(j)/distance`
toward `j`.  Spec-side comparand for claim C3. -/
def specForce (a j : Asteroid) : Vec :=
  if (j.pos - a.pos).length < a.radius + j.radius then 0
  else (j.pos - a.pos).norm * (j.size / (j.pos - a.pos).length)

/-- Index pairs `(i, j)` with `i < j < n`, in the nested-loop order of
`WorldState::check_collisions` (world.rs lines 75-76): outer `i`
ascending, inner `j` ascending from `i + 1`. -/
def pairIndices (n : ℕ) : List (ℕ × ℕ) :=
  ((List.range n).flatMap fun i => (List.range n).map fun j => (i, j)).filter
    fun p => decide (p.1 < p.2)

/-- Indices scheduled for removal by the recorded merge pairs: the
contents of the `to_remove` set of `check_collisions`. -/
def removedIndices (pairs : List (ℕ × ℕ)) : List ℕ :=
  pairs.flatMap fun q => [q.1, q.2]

/-- One inner-loop step of `check_collisions` (world.rs lines 77-89):
skip the pair if either index is already scheduled for removal, otherwise
record the pair when the two asteroids collide. -/
def scanStep (l : List Asteroid) (pairs : List (ℕ × ℕ)) (p : ℕ × ℕ) :
    List (ℕ × ℕ) :=
  if p.1 ∈ removedIndices pairs ∨ p.2 ∈ removedIndices pairs then pairs
  else if (l.getD p.1 default).collides_with (l.getD p.2 default) then pairs ++ [p]
  else pairs

/-- The full collision scan of `check_collisions`: the merge pairs it
records, in scan order. -/
def collisionScan (l : List Asteroid) : List (ℕ × ℕ) :=
  (pairIndices l.length).foldl (scanStep l) []

/-- Embeds `WorldState::check_collisions` (world.rs lines 71-101): retain
the asteroids whose index was not scheduled for removal, then append the
merged asteroid of every recorded pair. -/
def check_collisions (l : List Asteroid) : List Asteroid :=
  let pairs := collisionScan l
  ((l.enum.filter fun ia => decide (ia.1 ∉ removedIndices pairs)).map Prod.snd) ++
    pairs.map fun p => (l.getD p.1 default).merge_with (l.getD p.2 default)

/-- Embeds `WorldState::calculate_center_of_mass` (world.rs lines 107-122). -/
def calculate_center_of_mass (asteroids : List Asteroid) (weighted : Bool) : Vec :=
  if asteroids.isEmpty then ⟨0, 0⟩
  else
    let r := asteroids.foldl
      (fun (acc : ℝ × Vec) asteroid =>
        let mass := if weighted then asteroid.size else 1
        (acc.1 + mass, acc.2 + asteroid.pos * mass))
      (0, ⟨0, 0⟩)
    r.2 / r.1

/-- Embeds `WorldState::calculate_mass_std` (world.rs lines 124-144). -/
def calculate_mass_std (asteroids : List Asteroid) (center : Vec)
    (weighted : Bool) : ℝ :=
  if asteroids.isEmpty then 0
  else
    let r := asteroids.foldl
      (fun (acc : ℝ × ℝ) asteroid =>
        let mass := if weighted then asteroid.size else 1
        let distance := (asteroid.pos - center).length
        (acc.1 + mass, acc.2 + mass * distance * distance))
      (0, 0)
    if 0 < r.1 then Real.sqrt (r.2 / r.1) else 0

/-- Embeds `WorldState::cleanup_distant_asteroids` (world.rs lines
146-153): mass-weighted center, count-weighted standard deviation, retain
within `std_dev * multiplier`. -/
def cleanup_distant_asteroids (mult : ℝ) (asteroids : List Asteroid) :
    List Asteroid :=
  let center := calculate_center_of_mass asteroids true
  let std_dev := calculate_mass_std asteroids center false
  let threshold := std_dev * mult
  asteroids.filter fun asteroid =>
    decide ((asteroid.pos - center).length ≤ threshold)

/-- Modelled from the spec: the mass-weighted center of mass, written as
a quotient of sums.  Spec-side comparand for claim C6. -/
def comSpec (asteroids : List Asteroid) : Vec :=
  (asteroids.map fun a => a.pos * a.size).sum / (asteroids.map Asteroid.size).sum

/-- Modelled from the spec: the count-weighted standard deviation of
distances from `center` (the accepted variant with the unweighted
denominator).  Spec-side comparand for claim C6. -/
def stdSpec (asteroids : List Asteroid) (center : Vec) : ℝ :=
  Real.sqrt ((asteroids.map fun a => (a.pos - center).length ^ 2).sum /
    asteroids.length)

/-- Two merge pairs are disjoint when they share no index: this is the
"each body merges at most once per tick" guarantee. -/
def pairDisjoint (p q : ℕ × ℕ) : Prop :=
  p.1 ≠ q.1 ∧ p.1 ≠ q.2 ∧ p.2 ≠ q.1 ∧ p.2 ≠ q.2

/-- The invariant the collision scan maintains: every recorded pair has
increasing indices in range and a real collision, and no two recorded
pairs share an index. -/
def scanInv (l : List Asteroid) (pairs : List (ℕ × ℕ)) : Prop :=
  pairs.Pairwise pairDisjoint ∧
  ∀ p ∈ pairs, p.1 < p.2 ∧ p.2 < l.length ∧
    (l.getD p.1 default).collides_with (l.getD p.2 default)

/-- Embeds `WorldState` (world.rs lines 7-15).  The wall-clock diagnostic
fields (`update_count`, `last_ups_time`, `updates_per_second`) are
omitted: they only feed the updates-per-second statistic and never touch
the asteroid list, the clock arithmetic or `world_time`. -/
structure WorldState where
  asteroids : List Asteroid
  world_time : ℝ
  tick_rate : ℝ
  cleanup_threshold_multiplier : ℝ

/-- One whole tick of `WorldState::update` (world.rs lines 41-55):
integrate every asteroid against a snapshot of the full list, run the
collision pass, run cleanup, advance `world_time` by one tick. -/
def tickBody (s : WorldState) : WorldState :=
  let tick_duration := 1 / s.tick_rate
  let stepped := s.asteroids.map fun a => a.update s.asteroids tick_duration
  let merged := check_collisions stepped
  let cleaned := cleanup_distant_asteroids s.cleanup_threshold_multiplier merged
  { s with asteroids := cleaned, world_time := s.world_time + tick_duration }

/-- The `while delta > tick_duration` loop of `WorldState::update`
(world.rs lines 40-66), returning the final state and the leftover
`delta`.  The source's `tick_rate` is the constant `100.0`, so the
`0 < 1 / tick_rate` part of the guard holds on every reachable state; it
is included here so the loop provably terminates for every real
`tick_rate`. -/
def updateLoop (s : WorldState) (delta : ℝ) : WorldState × ℝ :=
  if h : 0 < 1 / s.tick_rate ∧ 1 / s.tick_rate < delta then
    updateLoop (tickBody s) (delta - 1 / s.tick_rate)
  else (s, delta)
termination_by (⌈delta * s.tick_rate⌉).toNat
decreasing_by
  obtain ⟨h1, h2⟩ := h
  have htr : 0 < s.tick_rate := by
    by_contra hc
    push_neg at hc
    have : 1 / s.tick_rate ≤ 0 := one_div_nonpos.mpr hc
    linarith
  have hEq : (tickBody s).tick_rate = s.tick_rate := rfl
  rw [hEq]
  have key : (delta - 1 / s.tick_rate) * s.tick_rate = delta * s.tick_rate - 1 := by
    field_simp
  rw [key]
  have h3 : (1 : ℝ) < delta * s.tick_rate := by
    have := (div_lt_iff₀ htr).mp h2
    linarith
  have hceil : (1 : ℤ) < ⌈delta * s.tick_rate⌉ :=
    Int.lt_ceil.mpr (by exact_mod_cast h3)
  rw [show delta * s.tick_rate - 1 = delta * s.tick_rate - (1 : ℤ) by push_cast; ring,
    Int.ceil_sub_int]
  omega

/-- Embeds `WorldState::update` (world.rs lines 36-69): run whole ticks
while more than one tick of time remains, return the consumed simulated
time `delta_time - delta`. -/
def WorldState.update (s : WorldState) (delta_time : ℝ) : WorldState × ℝ :=
  let r := updateLoop s delta_time
  (r.1, delta_time - r.2)

/-- Embeds `SHIP_RADIUS` (ship.rs line 8). -/
def SHIP_RADIUS : ℝ := 10

/-- Embeds `SHIP_MASS` (ship.rs line 9). -/
def SHIP_MASS : ℝ := 100

/-- Embeds `COLLISION_DAMAGE_THRESHOLD` (ship.rs line 11). -/
def COLLISION_DAMAGE_THRESHOLD : ℝ := 10

/-- Embeds `RESTITUTION` (ship.rs line 12). -/
def RESTITUTION : ℝ := 1 / 2

/-- Embeds `Ship` (ship.rs lines 14-20). -/
structure Ship where
  pos : Vec
  vel : Vec
  orientation : ℝ
  health : ℝ
  engine_power : ℝ

/-- One step of the gravity/collection loop of `Ship::update` (ship.rs
lines 46-64): an overlapping asteroid is recorded as a collision entry
(index, direction, distance) and left untouched; a non-overlapping one
attracts the ship and is reciprocally perturbed by the ship's gravity. -/
def shipGravStep (shipPos : Vec) (dt : ℝ)
    (acc : Vec × List (ℕ × Vec × ℝ) × List Asteroid) (ia : ℕ × Asteroid) :
    Vec × List (ℕ × Vec × ℝ) × List Asteroid :=
  let a := ia.2
  let direction := a.pos - shipPos
  let distance := direction.length
  if distance ≤ SHIP_RADIUS + a.radius then
    (acc.1, acc.2.1 ++ [(ia.1, direction, distance)], acc.2.2 ++ [a])
  else
    let force := direction.norm * (a.size / distance)
    let ship_force := (-direction.norm) * (SHIP_MASS / distance)
    (acc.1 + force, acc.2.1, acc.2.2 ++ [{ a with vel := a.vel + ship_force * dt }])

/-- The whole first loop of `Ship::update`: accumulated ship
acceleration, collision entries, and the (gravity-perturbed) asteroids. -/
def shipGravPhase (shipPos : Vec) (dt : ℝ) (asteroids : List Asteroid) :
    Vec × List (ℕ × Vec × ℝ) × List Asteroid :=
  asteroids.enum.foldl (shipGravStep shipPos dt) (0, [], [])

/-- Result of resolving one recorded ship-asteroid collision. -/
structure CollisionOutcome where
  shipPos : Vec
  health : ℝ
  shipVelDelta : Vec
  asteroid : Asteroid

/-- The collision-resolution body of `Ship::update` (ship.rs lines
69-110) for one recorded entry: guarded by `distance > 0`, it applies
threshold damage, mass-proportional positional separation, and a
restitution impulse by the reduced-mass formula. -/
def processCollision (shipVel shipPos : Vec) (health : ℝ) (shipVelDelta : Vec)
    (a : Asteroid) (direction : Vec) (distance : ℝ) : CollisionOutcome :=
  if 0 < distance then
    let overlap := (SHIP_RADIUS + a.radius) - distance
    let normal := direction.norm
    let ship_mass := SHIP_MASS
    let asteroid_mass := a.size
    let total_mass := ship_mass + asteroid_mass
    let relative_vel := a.vel - shipVel
    let relative_vel_magnitude := relative_vel.length
    let rel_vel_along_normal := relative_vel.dot normal
    let health' :=
      if COLLISION_DAMAGE_THRESHOLD < relative_vel_magnitude then
        health - (relative_vel_magnitude - COLLISION_DAMAGE_THRESHOLD) *
          (relative_vel_magnitude - COLLISION_DAMAGE_THRESHOLD) *
          asteroid_mass / total_mass
      else health
    let shipPos' :=
      if 0 < overlap then
        shipPos - normal * overlap * (asteroid_mass / total_mass)
      else shipPos
    let aPos' :=
      if 0 < overlap then
        a.pos + normal * overlap * (ship_mass / total_mass)
      else a.pos
    let impulse_magnitude := -(1 + RESTITUTION) * rel_vel_along_normal *
        (ship_mass * asteroid_mass) / total_mass
    let impulse := normal * impulse_magnitude
    let shipVelDelta' := shipVelDelta - impulse / ship_mass
    let aVel' := a.vel + impulse / asteroid_mass
    ⟨shipPos', health', shipVelDelta', { a with pos := aPos', vel := aVel' }⟩
  else ⟨shipPos, health, shipVelDelta, a⟩

/-- Embeds `Ship::update` (ship.rs lines 41-119): gravity/collection
loop, then the collision-resolution loop accumulating `ship_vel_delta`,
then `vel += ship_vel_delta; vel += acc·dt; pos += vel·dt`. -/
def Ship.update (ship : Ship) (asteroids : List Asteroid) (dt : ℝ) :
    Ship × List Asteroid :=
  let g := shipGravPhase ship.pos dt asteroids
  let acc := g.1
  let collision_data := g.2.1
  let asts := g.2.2
  let folded := collision_data.foldl
    (fun (st : Vec × ℝ × Vec × List Asteroid) entry =>
      let a := st.2.2.2.getD entry.1 default
      let out := processCollision ship.vel st.1 st.2.1 st.2.2.1 a entry.2.1 entry.2.2
      (out.shipPos, out.health, out.shipVelDelta, st.2.2.2.set entry.1 out.asteroid))
    (ship.pos, ship.health, 0, asts)
  let vel2 := ship.vel + folded.2.2.1 + acc * dt
  ({ ship with pos := folded.1 + vel2 * dt, vel := vel2, health := folded.2.1 },
   folded.2.2.2)

namespace Vec

@[simp] theorem mk_zero : (⟨0, 0⟩ : Vec) = (0 : Vec) := rfl

@[simp] theorem zero_x : (0 : Vec).x = 0 := rfl

@[simp] theorem zero_y : (0 : Vec).y = 0 := rfl

@[simp] theorem add_x (v w : Vec) : (v + w).x = v.x + w.x := rfl

@[simp] theorem add_y (v w : Vec) : (v + w).y = v.y + w.y := rfl

@[simp] theorem neg_x (v : Vec) : (-v).x = -v.x := rfl

@[simp] theorem neg_y (v : Vec) : (-v).y = -v.y := rfl

@[simp] theorem sub_x (v w : Vec) : (v - w).x = v.x - w.x := rfl

@[simp] theorem sub_y (v w : Vec) : (v - w).y = v.y - w.y := rfl

@[simp] theorem smul_x (v : Vec) (s : ℝ) : (v * s).x = v.x * s := rfl

@[simp] theorem smul_y (v : Vec) (s : ℝ) : (v * s).y = v.y * s := rfl

@[simp] theorem smul_left_x (s : ℝ) (v : Vec) : (s * v).x = v.x * s := rfl

@[simp] theorem smul_left_y (s : ℝ) (v : Vec) : (s * v).y = v.y * s := rfl

@[simp] theorem div_x (v : Vec) (s : ℝ) : (v / s).x = v.x / s := rfl

@[simp] theorem div_y (v : Vec) (s : ℝ) : (v / s).y = v.y / s := rfl

theorem length_nonneg (v : Vec) : 0 ≤ v.length := Real.sqrt_nonneg _

@[simp] theorem length_zero : (0 : Vec).length = 0 := by
  simp [length]

theorem length_eq_zero_of_eq (v w : Vec) (h : v = w) : (v - w).length = 0 := by
  subst h; simp [length]

end Vec

/-- C2 counterexample: the claim `radius = sqrt(size/π)` is false on the
code; at `size = 1` the code's radius is `1/π` while the claimed value is
`sqrt(1/π)`, and `1/π < sqrt(1/π)` because `0 < 1/π < 1`. -/
theorem radius_not_sqrt_size_div_pi :
    Asteroid.radius ⟨⟨0, 0⟩, ⟨0, 0⟩, 1⟩ ≠ Real.sqrt (1 / π) := by
  have hpi1 : (1 : ℝ) < π := by nlinarith [Real.pi_gt_three]
  have hpos : (0 : ℝ) < 1 / π := by positivity
  have hlt : 1 / π < Real.sqrt (1 / π) := by
    rw [Real.lt_sqrt (le_of_lt hpos)]
    have h1 : 1 / π < 1 := by
      rw [div_lt_one Real.pi_pos]
      exact hpi1
    have h2 : 0 < (1 / π) * (1 - 1 / π) := mul_pos hpos (by linarith)
    nlinarith [h2]
  have : Asteroid.radius ⟨⟨0, 0⟩, ⟨0, 0⟩, 1⟩ = 1 / π := by
    simp [Asteroid.radius, Real.sqrt_one]
  rw [this]
  exact ne_of_lt hlt

/-- C2 amended: the radius the code uses, both directly and inside the
collision/overlap test, is `sqrt(size)/π` (not `sqrt(size/π)`). -/
theorem radius_is_sqrt_size_over_pi :
    (∀ a : Asteroid, a.radius = Real.sqrt a.size / π) ∧
    (∀ a b : Asteroid, a.collides_with b ↔
      (a.pos - b.pos).length ≤ Real.sqrt a.size / π + Real.sqrt b.size / π) := by
  constructor
  · intro a; rfl
  · intro a b; rfl

/-- C2 witness: the amended radius formula evaluated at a concrete body. -/
theorem radius_is_sqrt_size_over_pi_witness :
    Asteroid.radius ⟨⟨0, 0⟩, ⟨0, 0⟩, 4⟩ = Real.sqrt 4 / π :=
  radius_is_sqrt_size_over_pi.1 ⟨⟨0, 0⟩, ⟨0, 0⟩, 4⟩

/-- C4: merging two bodies of positive size gives exactly the perfectly
inelastic reference result — mass, momentum and the mass-weighted
centroid are all conserved. -/
theorem merge_matches_inelastic_reference (a b : Asteroid)
    (ha : 0 < a.size) (hb : 0 < b.size) :
    a.merge_with b = inelasticRef a b := by
  have : a.size + b.size ≠ 0 := by positivity
  unfold Asteroid.merge_with inelasticRef
  ext <;> simp <;> ring

/-- C4 witness: the merge theorem applied at two concrete bodies. -/
theorem merge_matches_inelastic_reference_witness :
    Asteroid.merge_with ⟨⟨0, 0⟩, ⟨2, 0⟩, 3⟩ ⟨⟨4, 0⟩, ⟨0, 2⟩, 1⟩ =
      inelasticRef ⟨⟨0, 0⟩, ⟨2, 0⟩, 3⟩ ⟨⟨4, 0⟩, ⟨0, 2⟩, 1⟩ :=
  merge_matches_inelastic_reference _ _ (by norm_num) (by norm_num)

/-- C10: merging is commutative — both orders give the same size,
velocity and position. -/
theorem merge_comm (a b : Asteroid) (ha : 0 < a.size) (hb : 0 < b.size) :
    a.merge_with b = b.merge_with a := by
  unfold Asteroid.merge_with
  ext <;> simp <;> ring

/-- C10 witness: commutativity applied at two concrete bodies. -/
theorem merge_comm_witness :
    Asteroid.merge_with ⟨⟨1, 0⟩, ⟨0, 1⟩, 2⟩ ⟨⟨0, 3⟩, ⟨5, 0⟩, 7⟩ =
      Asteroid.merge_with ⟨⟨0, 3⟩, ⟨5, 0⟩, 7⟩ ⟨⟨1, 0⟩, ⟨0, 1⟩, 2⟩ :=
  merge_comm _ _ (by norm_num) (by norm_num)

theorem gravAcc_eq_sum_specForce (a : Asteroid) (others : List Asteroid) :
    gravAcc a others = (others.map (specForce a)).sum := by
  have aux : ∀ (l : List Asteroid) (init : Vec),
      l.foldl
        (fun acc asteroid =>
          let direction := asteroid.pos - a.pos
          let distance := direction.length
          if distance < a.radius + asteroid.radius then acc
          else acc + direction.norm * (asteroid.size / distance))
        init = init + (l.map (specForce a)).sum := by
    intro l
    induction l with
    | nil => intro init; simp
    | cons j l ih =>
      intro init
      simp only [List.foldl_cons, List.map_cons, List.sum_cons]
      rw [ih]
      by_cases h : (j.pos - a.pos).length < a.radius + j.radius
      · simp [specForce, h, add_assoc]
      · simp [specForce, h, add_assoc]
  rw [gravAcc, aux, zero_add]

/-- C3 (amended: the overlap that suppresses gravity is strict,
`distance < r_i + r_j`): one tick of `Asteroid::update` adds, for every
other body, zero force on strict overlap and `size(j)/distance` toward
`j` otherwise; the acceleration is the plain vector sum of those forces
(not divided by the subject's own mass), and integration is semi-implicit
Euler — the new velocity is `v + a·dt` and the new position is
`p + v'·dt` with the already-updated velocity. -/
theorem asteroid_update_semi_implicit_euler (a : Asteroid)
    (others : List Asteroid) (step : ℝ) :
    (a.update others step).vel = a.vel + (others.map (specForce a)).sum * step ∧
    (a.update others step).pos = a.pos + (a.update others step).vel * step ∧
    (a.update others step).size = a.size := by
  refine ⟨?_, rfl, rfl⟩
  simp only [Asteroid.update, gravAcc_eq_sum_specForce]
  exact add_comm _ _

/-- C3 witness: the Euler characterization evaluated at a concrete body
with no neighbours. -/
theorem asteroid_update_semi_implicit_euler_witness :
    (Asteroid.update ⟨⟨0, 0⟩, ⟨1, 1⟩, 1⟩ [] 2).vel =
      (⟨⟨0, 0⟩, ⟨1, 1⟩, 1⟩ : Asteroid).vel +
        (([] : List Asteroid).map (specForce ⟨⟨0, 0⟩, ⟨1, 1⟩, 1⟩)).sum * (2 : ℝ) :=
  (asteroid_update_semi_implicit_euler ⟨⟨0, 0⟩, ⟨1, 1⟩, 1⟩ [] 2).1

/-- C3 counterexample: at distance exactly `r_i + r_j` (claimed to be a
no-gravity overlap) the code applies gravity — two bodies of size `π²`
(radius 1) placed 2 apart change velocity in one tick. -/
theorem gravity_applied_at_exact_touching_distance :
    ((⟨⟨2, 0⟩, ⟨0, 0⟩, π ^ 2⟩ : Asteroid).pos -
        (⟨⟨0, 0⟩, ⟨0, 0⟩, π ^ 2⟩ : Asteroid).pos).length =
      (⟨⟨0, 0⟩, ⟨0, 0⟩, π ^ 2⟩ : Asteroid).radius +
        (⟨⟨2, 0⟩, ⟨0, 0⟩, π ^ 2⟩ : Asteroid).radius ∧
    (Asteroid.update ⟨⟨0, 0⟩, ⟨0, 0⟩, π ^ 2⟩ [⟨⟨2, 0⟩, ⟨0, 0⟩, π ^ 2⟩] 1).vel ≠
      (⟨⟨0, 0⟩, ⟨0, 0⟩, π ^ 2⟩ : Asteroid).vel := by
  have hrad : (⟨⟨2, 0⟩, ⟨0, 0⟩, π ^ 2⟩ : Asteroid).radius = 1 := by
    simp [Asteroid.radius, Real.sqrt_sq Real.pi_pos.le, div_self Real.pi_ne_zero]
  have hrad0 : (⟨⟨0, 0⟩, ⟨0, 0⟩, π ^ 2⟩ : Asteroid).radius = 1 := by
    simp [Asteroid.radius, Real.sqrt_sq Real.pi_pos.le, div_self Real.pi_ne_zero]
  have hlen : ((⟨⟨2, 0⟩, ⟨0, 0⟩, π ^ 2⟩ : Asteroid).pos -
      (⟨⟨0, 0⟩, ⟨0, 0⟩, π ^ 2⟩ : Asteroid).pos).length = 2 := by
    simp only [Vec.length]
    norm_num
    rw [show (4 : ℝ) = 2 ^ 2 by norm_num, Real.sqrt_sq (by norm_num)]
  refine ⟨by rw [hlen, hrad, hrad0]; norm_num, ?_⟩
  have hvel : (Asteroid.update ⟨⟨0, 0⟩, ⟨0, 0⟩, π ^ 2⟩
      [⟨⟨2, 0⟩, ⟨0, 0⟩, π ^ 2⟩] 1).vel = ⟨π ^ 2 / 2, 0⟩ := by
    simp only [Asteroid.update, gravAcc, List.foldl_cons, List.foldl_nil]
    rw [show ((⟨⟨2, 0⟩, ⟨0, 0⟩, π ^ 2⟩ : Asteroid).pos -
        (⟨⟨0, 0⟩, ⟨0, 0⟩, π ^ 2⟩ : Asteroid).pos) = ⟨2, 0⟩ by ext <;> simp]
    have h2 : (⟨2, 0⟩ : Vec).length = 2 := by
      simp only [Vec.length]
      norm_num
      rw [show (4 : ℝ) = 2 ^ 2 by norm_num, Real.sqrt_sq (by norm_num)]
    rw [h2, hrad, hrad0]
    rw [if_neg (by norm_num)]
    ext <;> simp [Vec.norm, h2]
  rw [hvel]
  intro h
  have := congrArg Vec.x h
  simp at this
  exact Real.pi_ne_zero (by nlinarith [this])

/-- C8: on an empty world the center of mass is the zero vector and the
distance standard deviation is zero, for the weighted and the unweighted
query alike — the division by total mass is never reached. -/
theorem empty_world_center_and_std_zero :
    (∀ w : Bool, calculate_center_of_mass [] w = ⟨0, 0⟩) ∧
    (∀ (c : Vec) (w : Bool), calculate_mass_std [] c w = 0) := by
  constructor
  · intro w; simp [calculate_center_of_mass]
  · intro c w; simp [calculate_mass_std]

/-- C8 witness: empty-world safety evaluated at a concrete query. -/
theorem empty_world_center_and_std_zero_witness :
    calculate_mass_std [] ⟨3, 4⟩ true = 0 :=
  empty_world_center_and_std_zero.2 ⟨3, 4⟩ true

theorem com_foldl (w : Bool) (l : List Asteroid) :
    ∀ (t : ℝ) (wp : Vec),
      l.foldl
        (fun (acc : ℝ × Vec) asteroid =>
          let mass := if w then asteroid.size else 1
          (acc.1 + mass, acc.2 + asteroid.pos * mass))
        (t, wp) =
      (t + (l.map fun a => if w then a.size else (1 : ℝ)).sum,
       wp + (l.map fun a => a.pos * (if w then a.size else 1)).sum) := by
  induction l with
  | nil => intro t wp; simp
  | cons a l ih =>
    intro t wp
    simp only [List.foldl_cons, List.map_cons, List.sum_cons, ih]
    simp [Prod.mk.injEq, add_assoc]

theorem std_foldl (w : Bool) (c : Vec) (l : List Asteroid) :
    ∀ (t v : ℝ),
      l.foldl
        (fun (acc : ℝ × ℝ) asteroid =>
          let mass := if w then asteroid.size else 1
          let distance := (asteroid.pos - c).length
          (acc.1 + mass, acc.2 + mass * distance * distance))
        (t, v) =
      (t + (l.map fun a => if w then a.size else (1 : ℝ)).sum,
       v + (l.map fun a =>
         (if w then a.size else (1 : ℝ)) * (a.pos - c).length * (a.pos - c).length).sum) := by
  induction l with
  | nil => intro t v; simp
  | cons a l ih =>
    intro t v
    simp only [List.foldl_cons, List.map_cons, List.sum_cons, ih]
    simp [Prod.mk.injEq, add_assoc]

theorem map_one_sum (l : List Asteroid) :
    (l.map fun _ => (1 : ℝ)).sum = l.length := by
  induction l with
  | nil => simp
  | cons a l ih => simp [ih]; ring

theorem center_of_mass_weighted_eq_comSpec (asteroids : List Asteroid) :
    calculate_center_of_mass asteroids true = comSpec asteroids := by
  by_cases h : asteroids.isEmpty
  · rw [List.isEmpty_iff] at h
    subst h
    simp [calculate_center_of_mass, comSpec]
    ext <;> simp
  · rw [calculate_center_of_mass, if_neg h, com_foldl]
    have e1 : (asteroids.map fun a => if (true : Bool) = true then a.size else (1 : ℝ)) =
        asteroids.map Asteroid.size :=
      List.map_congr_left (by intro a _; simp)
    have e2 : (asteroids.map fun a => a.pos * (if (true : Bool) = true then a.size else (1 : ℝ)) :
          List Vec) =
        (asteroids.map fun a => a.pos * a.size : List Vec) :=
      List.map_congr_left (by intro a _; simp)
    rw [e2, e1]
    simp only [Vec.mk_zero, zero_add, comSpec]

theorem mass_std_unweighted_eq_stdSpec (asteroids : List Asteroid) (c : Vec) :
    calculate_mass_std asteroids c false = stdSpec asteroids c := by
  by_cases h : asteroids.isEmpty
  · rw [List.isEmpty_iff] at h
    subst h
    simp [calculate_mass_std, stdSpec]
  · rw [calculate_mass_std, if_neg h, std_foldl]
    have hlen : (0 : ℝ) < asteroids.length := by
      have : asteroids ≠ [] := by
        intro hc; rw [hc] at h; simp at h
      have := List.length_pos.mpr this
      exact_mod_cast this
    have e1 : (asteroids.map fun a => if (false : Bool) = true then a.size else (1 : ℝ)) =
        asteroids.map fun _ => (1 : ℝ) :=
      List.map_congr_left (by intro a _; simp)
    have e2 : (asteroids.map fun a =>
        (if (false : Bool) = true then a.size else (1 : ℝ)) *
          (a.pos - c).length * (a.pos - c).length) =
        asteroids.map fun a => (a.pos - c).length ^ 2 :=
      List.map_congr_left (by intro a _; simp; ring)
    rw [e1, e2, map_one_sum, zero_add, zero_add, if_pos hlen, stdSpec]

/-- C6: after the merges of a tick, cleanup removes exactly the bodies
whose distance from the mass-weighted center of mass exceeds
`multiplier × std_dev`, where the standard deviation uses the
count-weighted variance (the accepted variant); every body at distance at
most the threshold is retained. -/
theorem cleanup_evicts_beyond_std_threshold (asteroids : List Asteroid) (mult : ℝ) :
    calculate_center_of_mass asteroids true = comSpec asteroids ∧
    (∀ c : Vec, calculate_mass_std asteroids c false = stdSpec asteroids c) ∧
    cleanup_distant_asteroids mult asteroids =
      asteroids.filter fun a =>
        decide ((a.pos - comSpec asteroids).length ≤
          mult * stdSpec asteroids (comSpec asteroids)) := by
  refine ⟨center_of_mass_weighted_eq_comSpec asteroids,
    fun c => mass_std_unweighted_eq_stdSpec asteroids c, ?_⟩
  rw [cleanup_distant_asteroids]
  rw [center_of_mass_weighted_eq_comSpec, mass_std_unweighted_eq_stdSpec]
  apply List.filter_congr
  intro a _
  rw [decide_eq_decide, mul_comm]

/-- C6 witness: the cleanup characterization applied at a concrete
(empty) world. -/
theorem cleanup_evicts_beyond_std_threshold_witness :
    calculate_center_of_mass [] true = comSpec [] :=
  (cleanup_evicts_beyond_std_threshold [] 10).1

theorem mem_removedIndices (pairs : List (ℕ × ℕ)) (i : ℕ) :
    i ∈ removedIndices pairs ↔ ∃ q ∈ pairs, i = q.1 ∨ i = q.2 := by
  simp [removedIndices, List.mem_flatMap]

theorem mem_pairIndices {n : ℕ} {p : ℕ × ℕ} :
    p ∈ pairIndices n ↔ p.1 < p.2 ∧ p.2 < n := by
  simp only [pairIndices, List.mem_filter, List.mem_flatMap, List.mem_map,
    List.mem_range, decide_eq_true_eq]
  constructor
  · rintro ⟨⟨i, hi, j, hj, rfl⟩, hlt⟩
    exact ⟨hlt, hj⟩
  · rintro ⟨h1, h2⟩
    exact ⟨⟨p.1, lt_trans h1 h2, p.2, h2, rfl⟩, h1⟩

theorem scanStep_inv (l : List Asteroid) (pairs : List (ℕ × ℕ)) (p : ℕ × ℕ)
    (hp : p.1 < p.2 ∧ p.2 < l.length) (h : scanInv l pairs) :
    scanInv l (scanStep l pairs p) := by
  unfold scanStep
  split_ifs with h1 h2
  · exact h
  · push_neg at h1
    obtain ⟨hn1, hn2⟩ := h1
    constructor
    · rw [List.pairwise_append]
      refine ⟨h.1, List.pairwise_singleton _ _, ?_⟩
      intro a ha b hb
      simp only [List.mem_singleton] at hb
      subst hb
      have ha1 : a.1 ∈ removedIndices pairs :=
        (mem_removedIndices _ _).mpr ⟨a, ha, Or.inl rfl⟩
      have ha2 : a.2 ∈ removedIndices pairs :=
        (mem_removedIndices _ _).mpr ⟨a, ha, Or.inr rfl⟩
      exact ⟨fun e => hn1 (e ▸ ha1), fun e => hn2 (e ▸ ha1),
        fun e => hn1 (e ▸ ha2), fun e => hn2 (e ▸ ha2)⟩
    · intro q hq
      rcases List.mem_append.mp hq with hq | hq
      · exact h.2 q hq
      · simp only [List.mem_singleton] at hq
        subst hq
        exact ⟨hp.1, hp.2, h2⟩
  · exact h

theorem foldl_scanStep_inv (l : List Asteroid) :
    ∀ (ps : List (ℕ × ℕ)) (pairs : List (ℕ × ℕ)),
      (∀ p ∈ ps, p.1 < p.2 ∧ p.2 < l.length) → scanInv l pairs →
      scanInv l (ps.foldl (scanStep l) pairs) := by
  intro ps
  induction ps with
  | nil => intro pairs _ h; exact h
  | cons q ps ih =>
    intro pairs hps h
    simp only [List.foldl_cons]
    exact ih _ (fun p hp => hps p (List.mem_cons_of_mem _ hp))
      (scanStep_inv l pairs q (hps q (List.mem_cons_self _ _)) h)

/-- C5: the collision pass records pairs in increasing index order with
`i < j`, skips any pair touching an index already scheduled for removal
— so the recorded pairs are pairwise index-disjoint and each body merges
at most once per tick, the lowest pair index winning — and the resulting
list is the retained (non-removed) asteroids followed by the merged
asteroid of each recorded pair. -/
theorem check_collisions_pairs_disjoint_lowest_index (l : List Asteroid) :
    (∀ p ∈ collisionScan l, p.1 < p.2 ∧ p.2 < l.length ∧
      (l.getD p.1 default).collides_with (l.getD p.2 default)) ∧
    (collisionScan l).Pairwise pairDisjoint ∧
    check_collisions l =
      ((l.enum.filter fun ia =>
          decide (ia.1 ∉ removedIndices (collisionScan l))).map Prod.snd) ++
        (collisionScan l).map fun p =>
          (l.getD p.1 default).merge_with (l.getD p.2 default) := by
  have h := foldl_scanStep_inv l (pairIndices l.length) []
    (fun p hp => mem_pairIndices.mp hp) ⟨List.Pairwise.nil, by simp⟩
  exact ⟨h.2, h.1, rfl⟩

/-- C5 witness: the collision-pass theorem applied at a concrete list. -/
theorem check_collisions_pairs_disjoint_lowest_index_witness :
    (collisionScan ([] : List Asteroid)).Pairwise pairDisjoint :=
  (check_collisions_pairs_disjoint_lowest_index []).2.1

theorem tickBody_tick_rate (s : WorldState) : (tickBody s).tick_rate = s.tick_rate :=
  rfl

theorem iterate_tickBody_clock (s : WorldState) (k : ℕ) :
    (tickBody^[k] s).world_time = s.world_time + k * (1 / s.tick_rate) ∧
    (tickBody^[k] s).tick_rate = s.tick_rate := by
  induction k with
  | zero => simp
  | succ k ih =>
    rw [Function.iterate_succ_apply']
    constructor
    · show (tickBody^[k] s).world_time + 1 / (tickBody^[k] s).tick_rate = _
      rw [ih.1, ih.2]
      push_cast
      ring
    · show (tickBody^[k] s).tick_rate = _
      exact ih.2

theorem updateLoop_exact (k : ℕ) :
    ∀ (s : WorldState) (r : ℝ), 0 < s.tick_rate → 0 < r → r < 1 / s.tick_rate →
      updateLoop s (k / s.tick_rate + r) = (tickBody^[k] s, r) := by
  induction k with
  | zero =>
    intro s r htr hr hrt
    rw [updateLoop]
    rw [dif_neg]
    · simp
    · rintro ⟨-, hlt⟩
      simp only [Nat.cast_zero, zero_div, zero_add] at hlt
      linarith
  | succ k ih =>
    intro s r htr hr hrt
    have htd : 0 < 1 / s.tick_rate := by positivity
    have hknn : 0 ≤ (k : ℝ) / s.tick_rate := by positivity
    rw [updateLoop]
    rw [dif_pos ⟨htd, by push_cast; rw [add_div]; linarith⟩]
    have harg : (↑(k + 1) : ℝ) / s.tick_rate + r - 1 / s.tick_rate =
        (k : ℝ) / s.tick_rate + r := by
      push_cast
      rw [add_div]
      ring
    rw [harg]
    have := ih (tickBody s) r (by rw [tickBody_tick_rate]; exact htr)
      hr (by rw [tickBody_tick_rate]; exact hrt)
    rw [show (k : ℝ) / (tickBody s).tick_rate = (k : ℝ) / s.tick_rate from rfl] at this
    rw [this, ← Function.iterate_succ_apply]

/-- C1 (amended: the sub-tick remainder must be strictly positive, since
the loop guard `delta > tick_duration` is strict): for `0 < r <
1/tick_rate`, `World::update(k/tick_rate + r)` runs exactly `k` whole
ticks, returns exactly `k/tick_rate` as the consumed simulated time, and
advances `world_time` by exactly `k/tick_rate`.  At `r = 0` the code runs
only `k - 1` ticks (see the counterexample theorem). -/
theorem tick_quantization_strict_remainder (s : WorldState) (k : ℕ) (r : ℝ)
    (htr : 0 < s.tick_rate) (hr : 0 < r) (hrt : r < 1 / s.tick_rate) :
    (s.update (k / s.tick_rate + r)).1 = tickBody^[k] s ∧
    (s.update (k / s.tick_rate + r)).2 = k / s.tick_rate ∧
    (s.update (k / s.tick_rate + r)).1.world_time =
      s.world_time + k / s.tick_rate := by
  have h := updateLoop_exact k s r htr hr hrt
  unfold WorldState.update
  rw [h]
  refine ⟨rfl, by ring, ?_⟩
  show (tickBody^[k] s).world_time = _
  rw [(iterate_tickBody_clock s k).1]
  ring

/-- C1 witness: the quantization theorem applied at a concrete world with
tick rate 1, two whole ticks and remainder one half. -/
theorem tick_quantization_strict_remainder_witness :
    (WorldState.update ⟨[], 0, 1, 10⟩ ((2 : ℕ) / (1 : ℝ) + 1 / 2)).2 =
      (2 : ℕ) / (1 : ℝ) :=
  (tick_quantization_strict_remainder ⟨[], 0, 1, 10⟩ 2 (1 / 2)
    (by norm_num) (by norm_num) (by norm_num)).2.1

/-- C1 counterexample: with tick rate 100 and elapsed time exactly one
tick (`k = 1`, `r = 0`) the strict loop guard runs no tick at all, so the
update consumes 0 simulated seconds, not the claimed `1/tick_rate`. -/
theorem tick_update_at_exact_multiple_consumes_nothing :
    (WorldState.update ⟨[], 0, 100, 10⟩ (1 / 100)).2 = 0 ∧
    (1 : ℝ) / 100 ≠ 0 := by
  constructor
  · unfold WorldState.update
    rw [updateLoop]
    rw [dif_neg]
    · norm_num
    · rintro ⟨-, hlt⟩
      norm_num at hlt
  · norm_num

theorem processCollision_health (shipVel shipPos : Vec) (health : ℝ)
    (svd : Vec) (a : Asteroid) (direction : Vec) (distance : ℝ)
    (hd : 0 < distance) :
    (processCollision shipVel shipPos health svd a direction distance).health =
      if COLLISION_DAMAGE_THRESHOLD < (a.vel - shipVel).length then
        health - ((a.vel - shipVel).length - COLLISION_DAMAGE_THRESHOLD) *
          ((a.vel - shipVel).length - COLLISION_DAMAGE_THRESHOLD) *
          a.size / (SHIP_MASS + a.size)
      else health := by
  unfold processCollision
  rw [if_pos hd]

/-- C7: a ship-overlapping body at positive contact distance damages the
ship only when the relative speed exceeds the threshold of 10 units/sec;
the damage then equals the square of the speed surplus scaled by the
body's mass fraction `m/(SHIP_MASS + m)`; at or below the threshold the
health is unchanged. -/
theorem ship_damage_threshold_rule (shipVel shipPos : Vec) (health : ℝ)
    (svd : Vec) (a : Asteroid) (direction : Vec) (distance : ℝ)
    (hd : 0 < distance) :
    ((a.vel - shipVel).length ≤ 10 →
      (processCollision shipVel shipPos health svd a direction distance).health =
        health) ∧
    (10 < (a.vel - shipVel).length →
      (processCollision shipVel shipPos health svd a direction distance).health =
        health - ((a.vel - shipVel).length - 10) ^ 2 *
          (a.size / (SHIP_MASS + a.size))) := by
  have key := processCollision_health shipVel shipPos health svd a direction distance hd
  rw [COLLISION_DAMAGE_THRESHOLD] at key
  constructor
  · intro hle
    rw [key, if_neg (not_lt.mpr hle)]
  · intro hlt
    rw [key, if_pos hlt]
    ring

/-- C7 witness: the damage rule applied at a concrete sub-threshold
contact, leaving the health unchanged. -/
theorem ship_damage_threshold_rule_witness :
    (processCollision ⟨0, 0⟩ ⟨0, 0⟩ 100 0 ⟨⟨5, 0⟩, ⟨0, 0⟩, 100⟩ ⟨5, 0⟩ 5).health =
      100 :=
  (ship_damage_threshold_rule ⟨0, 0⟩ ⟨0, 0⟩ 100 0 ⟨⟨5, 0⟩, ⟨0, 0⟩, 100⟩ ⟨5, 0⟩ 5
    (by norm_num)).1 (by simp [Vec.length])

/-- C9: a pair at identical positions contributes no force anywhere —
the body-body gravity loop skips it (its strict-overlap guard holds, so
the zero-length direction is never normalized), the ship's gravity loop
files it as a collision entry without normalizing, and the collision
resolver's `distance > 0` guard leaves everything unchanged at distance
zero. -/
theorem zero_distance_pair_skipped (a b : Asteroid) (l1 l2 : List Asteroid)
    (shipPos shipVel svd : Vec) (health dt : ℝ) (d : Vec)
    (hab : a.pos = b.pos) (ha : 0 < a.size) (hb : 0 < b.size)
    (hship : b.pos = shipPos) :
    gravAcc a (l1 ++ b :: l2) = gravAcc a (l1 ++ l2) ∧
    shipGravPhase shipPos dt [b] = (0, [(0, 0, 0)], [b]) ∧
    processCollision shipVel shipPos health svd b d 0 =
      ⟨shipPos, health, svd, b⟩ := by
  have hdist : (b.pos - a.pos).length = 0 :=
    Vec.length_eq_zero_of_eq _ _ hab.symm
  have hra : 0 < a.radius := div_pos (Real.sqrt_pos.mpr ha) Real.pi_pos
  have hrb : 0 < b.radius := div_pos (Real.sqrt_pos.mpr hb) Real.pi_pos
  refine ⟨?_, ?_, ?_⟩
  · have hstep : ∀ X : Vec,
        (if (b.pos - a.pos).length < a.radius + b.radius then X
         else X + (b.pos - a.pos).norm * (b.size / (b.pos - a.pos).length)) = X :=
      fun X => if_pos (by rw [hdist]; linarith)
    simp only [gravAcc, List.foldl_append, List.foldl_cons]
    congr 1
    exact hstep _
  · have hdir : b.pos - shipPos = 0 := by
      rw [hship]; ext <;> simp
    have hlen : (b.pos - shipPos).length = 0 := by
      rw [hdir]; exact Vec.length_zero
    have hcond : (b.pos - shipPos).length ≤ SHIP_RADIUS + b.radius := by
      rw [hlen, SHIP_RADIUS]; linarith
    simp only [shipGravPhase, List.enum]
    simp only [List.enumFrom, List.foldl_cons, List.foldl_nil]
    unfold shipGravStep
    rw [if_pos hcond]
    simp [hdir, hlen]
  · unfold processCollision
    rw [if_neg (lt_irrefl 0)]

/-- C9 witness: the zero-distance theorem applied at a concrete
coincident pair. -/
theorem zero_distance_pair_skipped_witness :
    gravAcc ⟨⟨1, 2⟩, ⟨0, 0⟩, 1⟩ ([] ++ ⟨⟨1, 2⟩, ⟨3, 0⟩, 4⟩ :: []) =
      gravAcc ⟨⟨1, 2⟩, ⟨0, 0⟩, 1⟩ ([] ++ []) :=
  (zero_distance_pair_skipped ⟨⟨1, 2⟩, ⟨0, 0⟩, 1⟩ ⟨⟨1, 2⟩, ⟨3, 0⟩, 4⟩ [] []
    ⟨1, 2⟩ 0 0 5 1 ⟨3, 4⟩ rfl (by norm_num) (by norm_num) rfl).1

end
